import Mathlib

/-
Verification of the asynchronous job-processing core of the lite.ai.web
repository. The definitions below are a shallow embedding of the frontend
store and view code (frontend/src/stores/ghibli.ts, frontend/src/views/Home.vue,
frontend/src/components/ImageUpload.vue) and of the documented
UpscaleProcessor class. Network calls are abstracted as oracles: a function
gives, for each request the code issues, the response (or thrown error) that
the server produced. The theorems then quantify over all oracles.
-/

set_option autoImplicit false

namespace LiteAiWeb

/-- JS truthiness helper for the pattern `a || b` on a string field: the
empty string is falsy, so the default is used exactly when `a` is empty. -/
def strOr (a b : String) : String := if a = "" then b else a

/-- JS truthiness for an optional string field: `x || d` where `x` may be
absent (undefined) or present; an empty string also falls back to `d`. -/
def optStrOr (a : Option String) (d : String) : String :=
  match a with
  | some s => strOr s d
  | none => d

/-- JS truthiness of an optional string used as a bare condition
(for example `response.data.result_url`): absent or empty is falsy. -/
def truthy (a : Option String) : Bool :=
  match a with
  | some s => !s.isEmpty
  | none => false

/-- Model of the JS method `s.startsWith(p)`, computed on the character
list so that concrete instances evaluate by `decide`. -/
def jsStartsWith (s p : String) : Bool := p.data.isPrefixOf s.data

/-- Model of the JS method `s.trim()`: whitespace is stripped from both
ends, computed on the character list so that concrete instances evaluate. -/
def jsTrim (s : String) : String :=
  String.mk (((s.data.dropWhile Char.isWhitespace).reverse.dropWhile
    Char.isWhitespace).reverse)

/-- Body of the `/api/progress/:taskId` response, interface ProgressResponse
of frontend/src/stores/ghibli.ts. -/
structure ProgressResponse where
  success : Bool
  task_id : String
  status : String
  progress : Int
  message : String
  result_url : Option String
  error : Option String
deriving DecidableEq

/-- Outcome of one `axios.get` on the progress endpoint: a 200 response with
a parsed body, or a thrown axios error that may carry an HTTP status code. -/
inductive GetOutcome where
  | ok (r : ProgressResponse)
  | httpError (status : Option Nat)
deriving DecidableEq

/-- The store field `currentTask` of the ghibli store. -/
structure CurrentTask where
  taskId : String
  progress : Int
  status : String
  message : String
deriving DecidableEq

/-- An exception raised inside the try block of one poll iteration: either
the axios error of the `get` itself, or a plain `new Error(msg)` thrown by
the surrounding JS code. -/
inductive Thrown where
  | axiosErr (status : Option Nat)
  | jsError (msg : String)
deriving DecidableEq

/-- Control outcome of the try block of one poll iteration. -/
inductive TryOut where
  | ret (url : String)
  | thrown (e : Thrown)
  | fallthrough
deriving DecidableEq

/-- Image URL fixup used by the store (second revision): the result path is
prefixed with the API base unless it is already an absolute http URL. -/
def mkImageUrl (apiBase url : String) : String :=
  if jsStartsWith url "http" then url else apiBase ++ url

/-- Mutation of `this.currentTask` performed on a successful progress
response: the reported progress, status and message are copied verbatim
whenever the tracked task id matches. -/
def updateTask (taskId : String) (r : ProgressResponse) (ct : Option CurrentTask) :
    Option CurrentTask :=
  match ct with
  | some t =>
    if t.taskId = taskId then
      some { t with progress := r.progress, status := r.status, message := r.message }
    else some t
  | none => none

/-- Try block of one iteration of pollTaskProgress
(frontend/src/stores/ghibli.ts, lines 775-822 of src/unnamed/part_004):
issue the `get`; on a successful body update `currentTask`, return the image
URL when status is completed with a truthy result_url, throw
`Error(error || '图像生成失败')` when status is failed, and throw
`Error(message || '查询进度失败')` when the body has `success: false`. -/
def tryBody (apiBase taskId : String) (o : GetOutcome) (ct : Option CurrentTask) :
    Option CurrentTask × TryOut :=
  match o with
  | .httpError st => (ct, .thrown (.axiosErr st))
  | .ok r =>
    if r.success = true then
      let ct1 := updateTask taskId r ct
      if r.status = "completed" ∧ truthy r.result_url = true then
        (ct1, .ret (mkImageUrl apiBase (r.result_url.getD "")))
      else if r.status = "failed" then
        (ct1, .thrown (.jsError (optStrOr r.error "图像生成失败")))
      else
        (ct1, .fallthrough)
    else
      (ct, .thrown (.jsError (strOr r.message "查询进度失败")))

/-- Result of a whole run of pollTaskProgress: the returned URL, the thrown
not-found error `'任务不存在或已过期'`, or the thrown timeout error
`'图像生成超时，请重试'`. These are the only ways the source loop can end:
in particular no constructor carries the backend failure text, because the
`throw` on a failed status is caught by the catch block below. -/
inductive PollResult where
  | completedUrl (url : String)
  | notFoundError
  | timeoutError
deriving DecidableEq

/-- Control outcome of one whole poll iteration. -/
inductive StepOut where
  | exit (r : PollResult)
  | next
deriving DecidableEq

/-- Request issued to the server by the poll loop. The loop only ever issues
reads of the progress endpoint; it performs no mutating request. -/
inductive PollAction where
  | getProgress (taskId : String)
deriving DecidableEq

/-- Catch block of pollTaskProgress: only an axios error whose HTTP status is
404 is turned into a rethrow (the not-found error); every other exception —
including the Error thrown on a `failed` status and the Error thrown on a
`success: false` body — is logged and swallowed, and the loop continues. -/
def pollCatch (e : Thrown) : StepOut :=
  match e with
  | .axiosErr st => if st = some 404 then .exit .notFoundError else .next
  | .jsError _ => .next

/-- One full iteration of the poll loop: try block, then catch block. -/
def pollStep (apiBase taskId : String) (o : GetOutcome) (ct : Option CurrentTask) :
    Option CurrentTask × StepOut :=
  let p := tryBody apiBase taskId o ct
  match p.2 with
  | .ret url => (p.1, .exit (.completedUrl url))
  | .fallthrough => (p.1, .next)
  | .thrown e => (p.1, pollCatch e)

/-- State after a run of the poll loop: final `currentTask`, the list of
server requests issued, and the final result. -/
structure PollRun where
  ct : Option CurrentTask
  actions : List PollAction
  result : PollResult
deriving DecidableEq

/-- The constant `maxPolls = 300` of pollTaskProgress. -/
def maxPolls : Nat := 300

/-- The while loop of pollTaskProgress. `polls` is the loop counter (also
the index of the next oracle response) and `fuel` is `maxPolls - polls`;
when the fuel is exhausted the loop falls through and the timeout error is
thrown. -/
def pollLoopAux (apiBase taskId : String) (oracle : Nat → GetOutcome) :
    Nat → Nat → Option CurrentTask → PollRun
  | _, 0, ct => ⟨ct, [], .timeoutError⟩
  | polls, fuel + 1, ct =>
    let p := pollStep apiBase taskId (oracle polls) ct
    match p.2 with
    | .exit r => ⟨p.1, [.getProgress taskId], r⟩
    | .next =>
      let run := pollLoopAux apiBase taskId oracle (polls + 1) fuel p.1
      ⟨run.ct, .getProgress taskId :: run.actions, run.result⟩

/-- Embedding of pollTaskProgress: poll the progress endpoint up to
`maxPolls` times, starting from the given `currentTask` store state. -/
def pollTaskProgress (apiBase taskId : String) (oracle : Nat → GetOutcome)
    (ct : Option CurrentTask) : PollRun :=
  pollLoopAux apiBase taskId oracle 0 maxPolls ct

/-- Control decision of one poll iteration as a function of the response
alone; `pollStep_snd` shows the decision never depends on `currentTask`. -/
def stepDecision (apiBase taskId : String) (o : GetOutcome) : StepOut :=
  (pollStep apiBase taskId o none).2

/-- A response to `get` that is neither a 404 nor an observation of a
terminal status (`completed` or `failed`). -/
def nonTerminal (o : GetOutcome) : Prop :=
  match o with
  | .httpError st => st ≠ some 404
  | .ok r => r.status ≠ "completed" ∧ r.status ≠ "failed"

/-- A transient poll error: the `get` itself failed, but not with a 404. -/
def transientGetError (o : GetOutcome) : Prop :=
  ∃ st, o = .httpError st ∧ st ≠ some 404

theorem pollStep_snd (a t : String) (o : GetOutcome) (ct : Option CurrentTask) :
    (pollStep a t o ct).2 = stepDecision a t o := by
  cases o with
  | httpError st => rfl
  | ok r =>
    by_cases hs : r.success = true
    · by_cases hc : r.status = "completed" ∧ truthy r.result_url = true
      · simp [pollStep, tryBody, stepDecision, hs, hc]
      · by_cases hf : r.status = "failed"
        · simp [pollStep, tryBody, stepDecision, hs, hc, hf]
        · simp [pollStep, tryBody, stepDecision, hs, hc, hf]
    · simp [pollStep, tryBody, stepDecision, hs]

theorem stepDecision_of_nonTerminal (a t : String) (o : GetOutcome)
    (h : nonTerminal o) : stepDecision a t o = .next := by
  cases o with
  | httpError st =>
    simp only [nonTerminal] at h
    simp [stepDecision, pollStep, tryBody, pollCatch, h]
  | ok r =>
    obtain ⟨h1, h2⟩ := h
    by_cases hs : r.success = true
    · simp [stepDecision, pollStep, tryBody, pollCatch, hs, h1, h2]
    · simp [stepDecision, pollStep, tryBody, pollCatch, hs]

theorem stepDecision_transient (a t : String) (o : GetOutcome)
    (h : transientGetError o) : stepDecision a t o = .next := by
  obtain ⟨st, rfl, hst⟩ := h
  simp [stepDecision, pollStep, tryBody, pollCatch, hst]

theorem stepDecision_exit (a t : String) (o : GetOutcome) (r : PollResult)
    (h : stepDecision a t o = .exit r) :
    (o = .httpError (some 404) ∧ r = .notFoundError) ∨
    (∃ resp, o = .ok resp ∧ resp.success = true ∧ resp.status = "completed" ∧
      truthy resp.result_url = true ∧
      r = .completedUrl (mkImageUrl a (resp.result_url.getD ""))) := by
  cases o with
  | httpError st =>
    by_cases h4 : st = some 404
    · subst h4
      left
      refine ⟨rfl, ?_⟩
      simp [stepDecision, pollStep, tryBody, pollCatch] at h
      exact h.symm
    · simp [stepDecision, pollStep, tryBody, pollCatch, h4] at h
  | ok resp =>
    by_cases hs : resp.success = true
    · by_cases hc : resp.status = "completed" ∧ truthy resp.result_url = true
      · right
        refine ⟨resp, rfl, hs, hc.1, hc.2, ?_⟩
        simp [stepDecision, pollStep, tryBody, hs, hc] at h
        exact h.symm
      · by_cases hf : resp.status = "failed"
        · simp [stepDecision, pollStep, tryBody, pollCatch, hs, hc, hf] at h
        · simp [stepDecision, pollStep, tryBody, pollCatch, hs, hc, hf] at h
    · simp [stepDecision, pollStep, tryBody, pollCatch, hs] at h

/-- Characterization of a run of the poll loop: either every consulted
response led to `next` and the loop timed out after exactly `fuel` polls, or
there is a first iteration `m` whose decision was an exit carrying the final
result, after `m` next-decisions, for a total of `m + 1` polls. -/
theorem pollLoopAux_char (a t : String) (oracle : Nat → GetOutcome) :
    ∀ (fuel polls : Nat) (ct : Option CurrentTask),
      ((pollLoopAux a t oracle polls fuel ct).result = .timeoutError ∧
        (pollLoopAux a t oracle polls fuel ct).actions.length = fuel ∧
        ∀ j, j < fuel → stepDecision a t (oracle (polls + j)) = .next) ∨
      (∃ m, m < fuel ∧
        (pollLoopAux a t oracle polls fuel ct).actions.length = m + 1 ∧
        (∀ j, j < m → stepDecision a t (oracle (polls + j)) = .next) ∧
        stepDecision a t (oracle (polls + m)) =
          .exit (pollLoopAux a t oracle polls fuel ct).result) := by
  intro fuel
  induction fuel with
  | zero =>
    intro polls ct
    left
    refine ⟨rfl, rfl, ?_⟩
    intro j hj
    omega
  | succ n ih =>
    intro polls ct
    have hsnd := pollStep_snd a t (oracle polls) ct
    cases hd : stepDecision a t (oracle polls) with
    | exit r =>
      right
      refine ⟨0, Nat.succ_pos n, ?_, ?_, ?_⟩
      · simp [pollLoopAux, hsnd, hd]
      · intro j hj; omega
      · simp only [Nat.add_zero, hd]
        simp [pollLoopAux, hsnd, hd]
    | next =>
      have hrec := ih (polls + 1) (pollStep a t (oracle polls) ct).1
      rcases hrec with ⟨h1, h2, h3⟩ | ⟨m, hm, hlen, hprev, hexit⟩
      · left
        refine ⟨?_, ?_, ?_⟩
        · simp [pollLoopAux, hsnd, hd, h1]
        · simp [pollLoopAux, hsnd, hd, h2]
        · intro j hj
          cases j with
          | zero => simpa using hd
          | succ j =>
            have := h3 j (by omega)
            have heq : polls + (j + 1) = polls + 1 + j := by omega
            rw [heq]
            exact this
      · right
        refine ⟨m + 1, by omega, ?_, ?_, ?_⟩
        · simp [pollLoopAux, hsnd, hd, hlen]
        · intro j hj
          cases j with
          | zero => simpa using hd
          | succ j =>
            have := hprev j (by omega)
            have heq : polls + (j + 1) = polls + 1 + j := by omega
            rw [heq]
            exact this
        · have heq : polls + (m + 1) = polls + 1 + m := by omega
          rw [heq]
          simpa [pollLoopAux, hsnd, hd] using hexit

/-- Shape of the request trace: the poll loop only ever issues reads of the
progress endpoint of the polled task. -/
theorem pollLoopAux_actions_shape (a t : String) (oracle : Nat → GetOutcome) :
    ∀ (fuel polls : Nat) (ct : Option CurrentTask),
      (pollLoopAux a t oracle polls fuel ct).actions =
        List.replicate (pollLoopAux a t oracle polls fuel ct).actions.length
          (.getProgress t) := by
  intro fuel
  induction fuel with
  | zero => intro polls ct; rfl
  | succ n ih =>
    intro polls ct
    cases hd : (pollStep a t (oracle polls) ct).2 with
    | exit r => simp [pollLoopAux, hd]
    | next =>
      have := ih (polls + 1) (pollStep a t (oracle polls) ct).1
      simp [pollLoopAux, hd, List.replicate_succ]
      exact this

/-- When every consulted response leads to a `next` decision, the loop runs
its full budget and throws the timeout error. -/
theorem pollLoopAux_all_next (a t : String) (oracle : Nat → GetOutcome)
    (fuel polls : Nat) (ct : Option CurrentTask)
    (h : ∀ j, j < fuel → stepDecision a t (oracle (polls + j)) = .next) :
    (pollLoopAux a t oracle polls fuel ct).result = .timeoutError ∧
    (pollLoopAux a t oracle polls fuel ct).actions.length = fuel := by
  rcases pollLoopAux_char a t oracle fuel polls ct with ⟨h1, h2, _⟩ | ⟨m, hm, _, _, hexit⟩
  · exact ⟨h1, h2⟩
  · rw [h m hm] at hexit
    exact absurd hexit (by simp)

/-- Progress body reporting a backend failure with error text
"engine timeout", as in the spec scenario for a failed job. -/
def failedResponse : ProgressResponse :=
  { success := true, task_id := "task-1", status := "failed", progress := 100,
    message := "处理失败", result_url := none, error := some "engine timeout" }

/-- Progress body of a job that is still running. -/
def runningResponse : ProgressResponse :=
  { success := true, task_id := "task-1", status := "running", progress := 50,
    message := "处理中", result_url := none, error := none }

/-- Progress body of a completed job with a result URL. -/
def completedResponse : ProgressResponse :=
  { success := true, task_id := "task-1", status := "completed", progress := 100,
    message := "完成", result_url := some "/static/out.png", error := none }

/-- C1: the claim states that observing a `failed` status with error text
makes the poll loop stop and surface a JobFailed error carrying that text.
The code contradicts this: the `throw new Error(response.data.error)` sits
inside the try block, and the catch block rethrows only axios 404 errors, so
the failure is swallowed and polling continues. On an oracle that reports
`failed` with error "engine timeout" on every poll, the loop keeps issuing
all `maxPolls = 300` reads and ends with the timeout error; the decision on
a failed observation is `next`, and a result type carrying the backend
error text does not even exist in the loop. -/
theorem pollLoop_swallows_failed_status :
    stepDecision "http://localhost:8000" "task-1" (.ok failedResponse) = .next ∧
    (pollTaskProgress "http://localhost:8000" "task-1"
        (fun _ => .ok failedResponse) none).result = .timeoutError ∧
    (pollTaskProgress "http://localhost:8000" "task-1"
        (fun _ => .ok failedResponse) none).actions.length = maxPolls := by
  refine ⟨rfl, ?_⟩
  unfold pollTaskProgress
  exact pollLoopAux_all_next "http://localhost:8000" "task-1"
    (fun _ => .ok failedResponse) maxPolls 0 none (fun j _ => rfl)

/-- C2: a job that never reaches a terminal state (and never answers 404)
makes the poll loop time out after exactly `maxPolls` polls; the request
trace consists of `maxPolls` reads of the progress endpoint and nothing
else, so the timeout mutates no server-side job state. -/
theorem pollLoop_timeout_after_max_attempts
    (apiBase taskId : String) (oracle : Nat → GetOutcome) (ct : Option CurrentTask)
    (h : ∀ k, k < maxPolls → nonTerminal (oracle k)) :
    (pollTaskProgress apiBase taskId oracle ct).result = .timeoutError ∧
    (pollTaskProgress apiBase taskId oracle ct).actions =
      List.replicate maxPolls (.getProgress taskId) := by
  unfold pollTaskProgress
  have hall : ∀ j, j < maxPolls → stepDecision apiBase taskId (oracle (0 + j)) = .next := by
    intro j hj
    exact stepDecision_of_nonTerminal apiBase taskId _ (by simpa using h j hj)
  have hres := pollLoopAux_all_next apiBase taskId oracle maxPolls 0 ct hall
  refine ⟨hres.1, ?_⟩
  have hshape := pollLoopAux_actions_shape apiBase taskId oracle maxPolls 0 ct
  rw [hshape, hres.2]

/-- Witness for C2 at a concrete oracle: a job that reports `running`
forever times out. -/
theorem pollLoop_timeout_after_max_attempts_witness :
    (pollTaskProgress "http://localhost:8000" "task-1"
        (fun _ => .ok runningResponse) none).result = .timeoutError := by
  have hk : ∀ k, k < maxPolls →
      nonTerminal ((fun _ => GetOutcome.ok runningResponse) k) := by
    intro k _
    exact ⟨by decide, by decide⟩
  exact (pollLoop_timeout_after_max_attempts "http://localhost:8000" "task-1"
    (fun _ => .ok runningResponse) none hk).1

/-- C3: transient poll errors do not abort the loop, and an early
termination happens only on a 404 (yielding the not-found error) or on an
observed terminal completed response; a timeout only ever happens with the
full budget of `maxPolls` polls spent. -/
theorem pollLoop_transient_errors_do_not_abort
    (apiBase taskId : String) (oracle : Nat → GetOutcome) (ct : Option CurrentTask) :
    (∀ k, k < (pollTaskProgress apiBase taskId oracle ct).actions.length →
        transientGetError (oracle k) →
        k + 1 < (pollTaskProgress apiBase taskId oracle ct).actions.length ∨
          k + 1 = maxPolls) ∧
    ((pollTaskProgress apiBase taskId oracle ct).result = .notFoundError →
        ∃ k, k < maxPolls ∧ oracle k = .httpError (some 404)) ∧
    (∀ u, (pollTaskProgress apiBase taskId oracle ct).result = .completedUrl u →
        ∃ k, k < maxPolls ∧ ∃ r, oracle k = .ok r ∧ r.success = true ∧
          r.status = "completed" ∧ truthy r.result_url = true) ∧
    ((pollTaskProgress apiBase taskId oracle ct).result = .timeoutError →
        (pollTaskProgress apiBase taskId oracle ct).actions.length = maxPolls) := by
  unfold pollTaskProgress
  rcases pollLoopAux_char apiBase taskId oracle maxPolls 0 ct with
    ⟨h1, h2, _⟩ | ⟨m, hm, hlen, _, hexit⟩
  · refine ⟨?_, ?_, ?_, ?_⟩
    · intro k hk _
      rw [h2] at hk ⊢
      omega
    · intro h
      rw [h1] at h
      exact absurd h (by simp)
    · intro u h
      rw [h1] at h
      exact absurd h (by simp)
    · intro _
      exact h2
  · simp only [Nat.zero_add] at hexit
    refine ⟨?_, ?_, ?_, ?_⟩
    · intro k hk htr
      rw [hlen] at hk ⊢
      rcases Nat.lt_or_ge k m with hlt | hge
      · left; omega
      · have hkm : k = m := by omega
        subst hkm
        rw [stepDecision_transient apiBase taskId (oracle k) htr] at hexit
        exact absurd hexit (by simp)
    · intro h
      rw [h] at hexit
      rcases stepDecision_exit apiBase taskId _ _ hexit with ⟨ho, _⟩ | ⟨resp, _, _, _, _, hr⟩
      · exact ⟨m, hm, ho⟩
      · exact absurd hr (by simp)
    · intro u h
      rw [h] at hexit
      rcases stepDecision_exit apiBase taskId _ _ hexit with ⟨_, hr⟩ |
        ⟨resp, ho, hs, hc, ht, _⟩
      · exact absurd hr (by simp)
      · exact ⟨m, hm, resp, ho, hs, hc, ht⟩
    · intro h
      rw [h] at hexit
      rcases stepDecision_exit apiBase taskId _ _ hexit with ⟨_, hr⟩ | ⟨resp, _, _, _, _, hr⟩
      · exact absurd hr (by simp)
      · exact absurd hr (by simp)

/-- Oracle for the C3 witness: the first poll fails with a transient
network error (no HTTP status), the second poll reports completion. -/
def transientThenCompleted : Nat → GetOutcome := fun k =>
  if k = 0 then .httpError none else .ok completedResponse

/-- Witness for C3 at a concrete oracle: the run that hits one transient
error still observes the later completed response. -/
theorem pollLoop_transient_errors_do_not_abort_witness :
    ∃ k, k < maxPolls ∧ ∃ r, transientThenCompleted k = .ok r ∧ r.success = true ∧
      r.status = "completed" ∧ truthy r.result_url = true := by
  exact (pollLoop_transient_errors_do_not_abort "http://localhost:8000" "task-1"
      transientThenCompleted none).2.2.1
    (mkImageUrl "http://localhost:8000" "/static/out.png") rfl

/-! Progress Tracker. The backend service holding the per-job record
(status, progress, message, result, error) is not among the provided
sources; only its frontend observer (pollTaskProgress above) is. The
tracker itself is therefore modelled from the spec below. -/

/-- Job status of the tracker state machine. -/
inductive JobStatus where
  | pending | running | completed | failed
deriving DecidableEq

/-- Terminal statuses: completed and failed. -/
def JobStatus.isTerminal : JobStatus → Bool
  | .completed => true
  | .failed => true
  | _ => false

/-- Snapshot returned by `get(job_id)`. -/
structure JobSnapshot where
  status : JobStatus
  progress : Int
  message : String
  result_uri : Option String
  error : Option String
deriving DecidableEq

/-- Modelled from the spec: the status state machine of the Progress Tracker
(`pending → running → (completed | failed)`); a non-terminal status may also
be rewritten to itself by a pure progress update. -/
def allowedTransition : JobStatus → JobStatus → Bool
  | .pending, .pending => true
  | .pending, .running => true
  | .running, .running => true
  | .running, .completed => true
  | .running, .failed => true
  | _, _ => false

/-- Arguments of one `update(job_id, progress, message, status,
result_or_error)` call. -/
structure UpdateReq where
  progress : Int
  message : String
  status : JobStatus
  result_or_error : Option String
deriving DecidableEq

/-- Modelled from the spec: the Progress Tracker `update` operation of the
missing backend service. It rejects (returns none, leaving the record
unchanged) updates to a record already terminal, status transitions outside
the state machine, progress values that decrease or fall outside 0..100, and
terminal transitions missing their required result or error field. -/
def trackerUpdate (j : JobSnapshot) (u : UpdateReq) : Option JobSnapshot :=
  if j.status.isTerminal then none
  else if ¬ allowedTransition j.status u.status then none
  else if u.progress < j.progress ∨ u.progress < 0 ∨ 100 < u.progress then none
  else if u.status = .completed ∧ u.result_or_error = none then none
  else if u.status = .failed ∧ u.result_or_error = none then none
  else some {
    status := u.status,
    progress := u.progress,
    message := u.message,
    result_uri := if u.status = .completed then u.result_or_error else none,
    error := if u.status = .failed then u.result_or_error else none }

/-- Applying one update: a rejected update leaves the record unchanged. -/
def applyUpdate (j : JobSnapshot) (u : UpdateReq) : JobSnapshot :=
  match trackerUpdate j u with
  | some j2 => j2
  | none => j

/-- Job record created by the Job Submitter: pending with progress 0. -/
def initialJob : JobSnapshot :=
  { status := .pending, progress := 0, message := "", result_uri := none, error := none }

/-- Snapshots observed by a `get` after each update of a sequence. -/
def observations (j : JobSnapshot) : List UpdateReq → List JobSnapshot
  | [] => []
  | u :: us => applyUpdate j u :: observations (applyUpdate j u) us

theorem applyUpdate_progress_le (j : JobSnapshot) (u : UpdateReq) :
    j.progress ≤ (applyUpdate j u).progress := by
  unfold applyUpdate trackerUpdate
  split_ifs with h1 h2 h3 h4 h5 <;> simp <;> (push_neg at h3; omega)

theorem applyUpdate_bounds (j : JobSnapshot) (u : UpdateReq)
    (h : 0 ≤ j.progress ∧ j.progress ≤ 100) :
    0 ≤ (applyUpdate j u).progress ∧ (applyUpdate j u).progress ≤ 100 := by
  unfold applyUpdate trackerUpdate
  split_ifs with h1 h2 h3 h4 h5 <;> simp [h] <;> (push_neg at h3; omega)

theorem observations_chain (us : List UpdateReq) :
    ∀ j : JobSnapshot, (0 ≤ j.progress ∧ j.progress ≤ 100) →
      List.Chain' (fun a b : JobSnapshot => a.progress ≤ b.progress)
        (j :: observations j us) ∧
      ∀ x ∈ j :: observations j us, 0 ≤ x.progress ∧ x.progress ≤ 100 := by
  induction us with
  | nil =>
    intro j hj
    refine ⟨List.chain'_singleton j, ?_⟩
    intro x hx
    have hxj : x = j := by simpa [observations] using hx
    rw [hxj]
    exact hj
  | cons u us ih =>
    intro j hj
    have hb := applyUpdate_bounds j u hj
    have hrec := ih (applyUpdate j u) hb
    constructor
    · rw [observations, List.chain'_cons]
      exact ⟨applyUpdate_progress_le j u, hrec.1⟩
    · intro x hx
      rw [observations] at hx
      rcases List.mem_cons.mp hx with hx | hx
      · subst hx; exact hj
      · exact hrec.2 x hx

/-- C7: observed through any sequence of tracker updates starting from the
freshly created job, progress stays an integer within 0..100 and is
non-decreasing from each `get` observation to the next (so a non-zero value
is never reset); modelled from the spec because the backend tracker code is
not under the provided sources. -/
theorem progress_monotone_bounded (us : List UpdateReq) :
    List.Chain' (fun a b : JobSnapshot => a.progress ≤ b.progress)
      (initialJob :: observations initialJob us) ∧
    ∀ x ∈ initialJob :: observations initialJob us,
      0 ≤ x.progress ∧ x.progress ≤ 100 := by
  exact observations_chain us initialJob ⟨le_refl 0, by decide⟩

/-- Witness for C7 at a concrete update sequence: a run through running,
progress 40, then completion at 100. -/
theorem progress_monotone_bounded_witness :
    0 ≤ (JobSnapshot.progress
        (applyUpdate initialJob ⟨40, "working", .running, none⟩)) ∧
    (JobSnapshot.progress
        (applyUpdate initialJob ⟨40, "working", .running, none⟩)) ≤ 100 := by
  have h := progress_monotone_bounded
    [⟨40, "working", .running, none⟩, ⟨100, "done", .completed, some "/static/out.png"⟩]
  exact h.2 (applyUpdate initialJob ⟨40, "working", .running, none⟩)
    (by simp [observations])

/-! UpscaleProcessor (app/services/image_processing.py as documented in the
external API integration guide). The PIL image is abstracted to its size and
an opaque content tag; the external API call is an oracle returning either
the decoded result image or the raised exception message. -/

/-- Abstraction of a PIL image: width, height and an opaque content tag. -/
structure PImage where
  width : Nat
  height : Nat
  content : String
deriving DecidableEq

/-- Parameters dictionary of UpscaleProcessor.process. -/
structure UpscaleParams where
  scale_factor : Nat
  model : String
deriving DecidableEq

/-- Defaulting of `parameters.get('scale_factor', 2)`. -/
def upscaleScaleFactor : Option UpscaleParams → Nat
  | some p => p.scale_factor
  | none => 2

/-- Defaulting of `parameters.get('model', 'real-esrgan')`. -/
def upscaleModel : Option UpscaleParams → String
  | some p => p.model
  | none => "real-esrgan"

/-- The degraded local transform `_fallback_upscale`: a simple interpolation
resize to `(width * scale_factor, height * scale_factor)`; the resampled
pixel content is abstracted as the original content tag. -/
def fallbackUpscale (image : PImage) (scale_factor : Nat) : PImage :=
  { width := image.width * scale_factor,
    height := image.height * scale_factor,
    content := image.content }

/-- UpscaleProcessor.process: try the external API; on any raised exception
fall back to the local interpolation resize instead of surfacing the error. -/
def upscaleProcess (api : PImage → Nat → String → Except String PImage)
    (image : PImage) (parameters : Option UpscaleParams) : PImage :=
  let scale_factor := upscaleScaleFactor parameters
  let model := upscaleModel parameters
  match api image scale_factor model with
  | .ok result => result
  | .error _ => fallbackUpscale image scale_factor

/-- C6: when the external upscale API raises any exception, the processor
returns the local interpolation resize of exactly
`(width * scale_factor, height * scale_factor)` rather than surfacing the
error; when the API call succeeds, its decoded result image is returned
unchanged. -/
theorem upscale_falls_back_on_api_failure
    (api : PImage → Nat → String → Except String PImage)
    (image : PImage) (parameters : Option UpscaleParams) :
    (∀ e, api image (upscaleScaleFactor parameters) (upscaleModel parameters) = .error e →
      (upscaleProcess api image parameters).width =
          image.width * upscaleScaleFactor parameters ∧
      (upscaleProcess api image parameters).height =
          image.height * upscaleScaleFactor parameters) ∧
    (∀ result, api image (upscaleScaleFactor parameters) (upscaleModel parameters) = .ok result →
      upscaleProcess api image parameters = result) := by
  constructor
  · intro e he
    simp [upscaleProcess, he, fallbackUpscale]
  · intro result hr
    simp [upscaleProcess, hr]

/-- Witness for C6 at a concrete failing API and image. -/
theorem upscale_falls_back_on_api_failure_witness :
    (upscaleProcess (fun _ _ _ => .error "API请求失败: HTTP 500") ⟨320, 200, "px"⟩ none).width
        = 640 ∧
    (upscaleProcess (fun _ _ _ => .error "API请求失败: HTTP 500") ⟨320, 200, "px"⟩ none).height
        = 400 := by
  exact (upscale_falls_back_on_api_failure
    (fun _ _ _ => .error "API请求失败: HTTP 500") ⟨320, 200, "px"⟩ none).1
    "API请求失败: HTTP 500" rfl

/-! ImageUpload component (frontend/src/components/ImageUpload.vue). -/

/-- A browser File: name, byte size, and MIME type. -/
structure UFile where
  name : String
  size : Nat
  type : String
deriving DecidableEq

/-- Embedding of processFile (ImageUpload.vue lines 94-107). Returns the new
`selectedFile` state together with the upload events emitted and the alerts
shown: an oversized file or a non-image MIME type alerts and returns early;
otherwise the file is recorded as selected and one upload event is emitted. -/
def processFile (selectedFile : Option UFile) (file : UFile) :
    Option UFile × List UFile × List String :=
  if file.size > 10 * 1024 * 1024 then
    (selectedFile, [], ["文件大小不能超过 10MB"])
  else if ¬ jsStartsWith file.type "image/" then
    (selectedFile, [], ["请选择图片文件"])
  else
    (some file, [file], [])

/-- C9: a file over 10 MiB or with a MIME type not starting with `image/`
emits no upload event and leaves the selected file unchanged; any other file
becomes the selected file and is emitted in exactly one upload event. -/
theorem processFile_validates (st : Option UFile) (f : UFile) :
    ((f.size > 10 * 1024 * 1024 ∨ jsStartsWith f.type "image/" = false) →
      (processFile st f).1 = st ∧ (processFile st f).2.1 = []) ∧
    (f.size ≤ 10 * 1024 * 1024 → jsStartsWith f.type "image/" = true →
      (processFile st f).1 = some f ∧ (processFile st f).2.1 = [f]) := by
  constructor
  · intro h
    rcases h with h | h
    · simp [processFile, h]
    · by_cases hs : f.size > 10 * 1024 * 1024
      · simp [processFile, hs]
      · simp [processFile, hs, h]
  · intro h1 h2
    have hs : ¬ f.size > 10 * 1024 * 1024 := by omega
    simp [processFile, hs, h2]

/-- Witness for C9 at concrete files: an oversized JPEG is rejected without
an upload event, and a small JPEG is selected and emitted once. -/
theorem processFile_validates_witness :
    (processFile none ⟨"big.jpg", 10485761, "image/jpeg"⟩).2.1 = [] ∧
    (processFile none ⟨"ok.jpg", 2048, "image/jpeg"⟩).2.1 =
      [⟨"ok.jpg", 2048, "image/jpeg"⟩] := by
  constructor
  · exact ((processFile_validates none ⟨"big.jpg", 10485761, "image/jpeg"⟩).1
      (Or.inl (by decide))).2
  · exact ((processFile_validates none ⟨"ok.jpg", 2048, "image/jpeg"⟩).2
      (by decide) (by decide)).2

/-! Submission handlers of Home.vue. Each handler is embedded as the list of
externally visible actions it performs, with the authentication state, the
credit-check response and the outcome of the store call given as inputs. -/

/-- Response body of `POST /api/auth/credits/check` as read by the handlers:
the `success` flag and the `current_credits` balance. -/
structure CreditCheckResp where
  success : Bool
  current_credits : Int
deriving DecidableEq

/-- Outcome of awaiting `authStore.checkCredits(cost)`: a parsed response,
or a thrown network error carrying its message. -/
inductive CreditCheckOutcome where
  | resp (r : CreditCheckResp)
  | netError (msg : String)
deriving DecidableEq

/-- Processing kinds selectable in Home.vue. -/
inductive ProcKind where
  | ghibli_style | grayscale | creative_upscale | text_to_image | face_swap
deriving DecidableEq

/-- Externally visible actions of a submission handler. `processCall` stands
for the ghibli-store action that issues the processing request to the
backend (the point where a Job record gets created). -/
inductive FrontAction where
  | alertMsg (msg : String)
  | showAuthModal
  | checkCredits (cost : Int)
  | processCall (kind : ProcKind)
deriving DecidableEq

/-- Outcome of awaiting the ghibli-store processing action. -/
inductive StoreCallOutcome where
  | ok (url : String)
  | err (msg : String)
deriving DecidableEq

/-- The alert text `积分不足！当前积分：X，需要积分：N` shown on an
insufficient credit check. -/
def insufficientMsg (balance needed : Int) : String :=
  "积分不足！当前积分：" ++ toString balance ++ "，需要积分：" ++ toString needed

/-- Embedding of handleImageProcess (Home.vue lines 452-493): guard on a
selected file and on authentication, check credits at cost 10, refuse with
the insufficiency alert when the check is not successful, then dispatch the
store action for the selected kind; an unknown kind throws and is alerted. -/
def handleImageProcess (selectedFile : Option UFile) (isAuthenticated : Bool)
    (credit : CreditCheckOutcome) (kind : ProcKind) (store : StoreCallOutcome) :
    List FrontAction :=
  match selectedFile with
  | none => []
  | some _ =>
    if ¬ isAuthenticated then
      [.alertMsg "请先登录后再使用功能", .showAuthModal]
    else
      match credit with
      | .netError msg => [.checkCredits 10, .alertMsg msg]
      | .resp r =>
        if ¬ r.success then
          [.checkCredits 10, .alertMsg (insufficientMsg r.current_credits 10)]
        else
          match kind with
          | .ghibli_style | .grayscale | .creative_upscale =>
            match store with
            | .ok _ => [.checkCredits 10, .processCall kind]
            | .err m => [.checkCredits 10, .processCall kind, .alertMsg m]
          | _ => [.checkCredits 10, .alertMsg "未知的处理类型"]

/-- Embedding of handleTextToImage (Home.vue lines 511-543): guard on
authentication, check credits at cost 10, refuse with the insufficiency
alert when unsuccessful, then call generateImageWithProgress with the prompt
as given — the handler itself performs no prompt validation. -/
def handleTextToImage (prompt : String) (isAuthenticated : Bool)
    (credit : CreditCheckOutcome) (store : StoreCallOutcome) : List FrontAction :=
  if ¬ isAuthenticated then
    [.alertMsg "请先登录后再使用功能", .showAuthModal]
  else
    match credit with
    | .netError msg => [.checkCredits 10, .alertMsg msg]
    | .resp r =>
      if ¬ r.success then
        [.checkCredits 10, .alertMsg (insufficientMsg r.current_credits 10)]
      else
        match store with
        | .ok _ => [.checkCredits 10, .processCall .text_to_image]
        | .err m => [.checkCredits 10, .processCall .text_to_image, .alertMsg m]

/-- Embedding of handleFaceSwap (Home.vue lines 598-630): guard on both
files and on authentication, check credits at cost 15, refuse with the
insufficiency alert when unsuccessful, then call the faceSwap store action. -/
def handleFaceSwap (sourceFile targetFile : Option UFile) (isAuthenticated : Bool)
    (credit : CreditCheckOutcome) (store : StoreCallOutcome) : List FrontAction :=
  match sourceFile, targetFile with
  | some _, some _ =>
    if ¬ isAuthenticated then
      [.alertMsg "请先登录后再使用功能", .showAuthModal]
    else
      match credit with
      | .netError msg => [.checkCredits 15, .alertMsg msg]
      | .resp r =>
        if ¬ r.success then
          [.checkCredits 15, .alertMsg (insufficientMsg r.current_credits 15)]
        else
          match store with
          | .ok _ => [.checkCredits 15, .processCall .face_swap]
          | .err m => [.checkCredits 15, .processCall .face_swap, .alertMsg m]
  | _, _ => []

/-- Disabled binding of the generate button (Home.vue lines 143-147): the
button is disabled while processing or while the prompt trims to empty. -/
def generateBtnDisabled (processing : Bool) (prompt : String) : Bool :=
  processing || jsTrim prompt == ""

/-- UI-level submission attempt for text_to_image: a click reaches
handleTextToImage only when the generate button is not disabled. -/
def attemptTextToImage (processing : Bool) (prompt : String) (isAuthenticated : Bool)
    (credit : CreditCheckOutcome) (store : StoreCallOutcome) : List FrontAction :=
  if generateBtnDisabled processing prompt then []
  else handleTextToImage prompt isAuthenticated credit store

/-- C4: the credit check always comes first — whenever a handler reaches the
processing call, its action trace starts with the credit check and the check
answered successfully — and an insufficient check makes the handler stop at
the insufficiency alert carrying the current balance, with no processing
call (hence no Job record) ever issued. -/
theorem credit_check_gates_submission (f g : UFile) (kind : ProcKind)
    (store : StoreCallOutcome) (r : CreditCheckResp) (hfail : r.success = false) :
    handleImageProcess (some f) true (.resp r) kind store =
      [.checkCredits 10, .alertMsg (insufficientMsg r.current_credits 10)] ∧
    handleFaceSwap (some f) (some g) true (.resp r) store =
      [.checkCredits 15, .alertMsg (insufficientMsg r.current_credits 15)] ∧
    (∀ credit2 store2 kind2 k,
      FrontAction.processCall k ∈ handleImageProcess (some f) true credit2 kind2 store2 →
        ∃ r2, credit2 = .resp r2 ∧ r2.success = true ∧
          (handleImageProcess (some f) true credit2 kind2 store2).head? =
            some (.checkCredits 10)) ∧
    (∀ credit2 store2 k,
      FrontAction.processCall k ∈ handleFaceSwap (some f) (some g) true credit2 store2 →
        ∃ r2, credit2 = .resp r2 ∧ r2.success = true ∧
          (handleFaceSwap (some f) (some g) true credit2 store2).head? =
            some (.checkCredits 15)) := by
  refine ⟨by simp [handleImageProcess, hfail], by simp [handleFaceSwap, hfail], ?_, ?_⟩
  · intro credit2 store2 kind2 k hmem
    cases credit2 with
    | netError m => simp [handleImageProcess] at hmem
    | resp r2 =>
      by_cases hr : r2.success = true
      · refine ⟨r2, rfl, hr, ?_⟩
        cases kind2 <;> cases store2 <;> simp [handleImageProcess, hr]
      · simp [handleImageProcess, hr] at hmem
  · intro credit2 store2 k hmem
    cases credit2 with
    | netError m => simp [handleFaceSwap] at hmem
    | resp r2 =>
      by_cases hr : r2.success = true
      · refine ⟨r2, rfl, hr, ?_⟩
        cases store2 <;> simp [handleFaceSwap, hr]
      · simp [handleFaceSwap, hr] at hmem

/-- Witness for C4 at a concrete insufficient check (balance 3 against
cost 10): the handler stops at the alert and issues no processing call. -/
theorem credit_check_gates_submission_witness :
    handleImageProcess (some ⟨"a.jpg", 100, "image/jpeg"⟩) true
        (.resp ⟨false, 3⟩) .grayscale (.ok "/static/r.png") =
      [.checkCredits 10, .alertMsg (insufficientMsg 3 10)] := by
  exact (credit_check_gates_submission ⟨"a.jpg", 100, "image/jpeg"⟩
    ⟨"b.jpg", 100, "image/jpeg"⟩ .grayscale (.ok "/static/r.png") ⟨false, 3⟩ rfl).1

/-- C5 counterexample: a submission of kind text_to_image with an empty
prompt does not fail with a ValidationError. Invoked directly, the handler
checks credits and issues the processing call with the empty prompt — there
is no prompt validation in it at all; through the UI the click is simply
blocked by the disabled generate button, so nothing happens and no error is
surfaced either. -/
theorem textToImage_empty_prompt_counterexample :
    handleTextToImage "" true (.resp ⟨true, 100⟩) (.ok "/static/g.png") =
      [.checkCredits 10, .processCall .text_to_image] ∧
    attemptTextToImage false "" true (.resp ⟨true, 100⟩) (.ok "/static/g.png") = [] := by
  constructor <;> rfl

/-- C5 amended: with an empty or whitespace-only prompt the generate button
is disabled, so the UI submission attempt performs no action at all — no
Job, no credit check, and no surfaced error. -/
theorem textToImage_empty_prompt_blocked
    (processing : Bool) (prompt : String) (isAuthenticated : Bool)
    (credit : CreditCheckOutcome) (store : StoreCallOutcome)
    (h : jsTrim prompt = "") :
    attemptTextToImage processing prompt isAuthenticated credit store = [] := by
  unfold attemptTextToImage generateBtnDisabled
  simp [h]

/-- Witness for the amended C5 at a concrete whitespace-only prompt. -/
theorem textToImage_empty_prompt_blocked_witness :
    attemptTextToImage false "   " true (.resp ⟨true, 100⟩) (.ok "/static/g.png") = [] :=
  textToImage_empty_prompt_blocked false "   " true (.resp ⟨true, 100⟩)
    (.ok "/static/g.png") (by decide)

/-- Cost per operation kind as claimed by the spec: 15 units for face_swap
and 10 units for the other kinds. -/
def specCreditCost : ProcKind → Int
  | .face_swap => 15
  | _ => 10

/-- C8: the cost each submission handler passes to the credit check is the
fixed per-kind amount of the spec — 10 for ghibli_style, grayscale,
creative_upscale and text_to_image, 15 for face_swap — on every submission
of that kind, regardless of response or store outcome. -/
theorem per_kind_credit_cost (f g : UFile) (credit : CreditCheckOutcome)
    (store : StoreCallOutcome) (prompt : String) :
    (∀ kind, (kind = ProcKind.ghibli_style ∨ kind = ProcKind.grayscale ∨
        kind = ProcKind.creative_upscale) →
      (handleImageProcess (some f) true credit kind store).head? =
          some (.checkCredits (specCreditCost kind)) ∧
      ∀ c, FrontAction.checkCredits c ∈ handleImageProcess (some f) true credit kind store →
        c = specCreditCost kind) ∧
    ((handleTextToImage prompt true credit store).head? =
        some (.checkCredits (specCreditCost .text_to_image)) ∧
      ∀ c, FrontAction.checkCredits c ∈ handleTextToImage prompt true credit store →
        c = specCreditCost .text_to_image) ∧
    ((handleFaceSwap (some f) (some g) true credit store).head? =
        some (.checkCredits (specCreditCost .face_swap)) ∧
      ∀ c, FrontAction.checkCredits c ∈ handleFaceSwap (some f) (some g) true credit store →
        c = specCreditCost .face_swap) := by
  have hip : ∀ kind,
      (handleImageProcess (some f) true credit kind store).head? =
          some (.checkCredits 10) ∧
      ∀ c, FrontAction.checkCredits c ∈ handleImageProcess (some f) true credit kind store →
        c = 10 := by
    intro kind
    cases credit with
    | netError m => refine ⟨by simp [handleImageProcess], ?_⟩; intro c hc
                    simp [handleImageProcess] at hc
                    exact hc
    | resp r =>
      by_cases hr : r.success = true
      · refine ⟨by cases kind <;> cases store <;> simp [handleImageProcess, hr], ?_⟩
        intro c hc
        cases kind <;> cases store <;> simp [handleImageProcess, hr] at hc <;> exact hc
      · refine ⟨by simp [handleImageProcess, hr], ?_⟩
        intro c hc
        simp [handleImageProcess, hr] at hc
        exact hc
  have htt :
      (handleTextToImage prompt true credit store).head? = some (.checkCredits 10) ∧
      ∀ c, FrontAction.checkCredits c ∈ handleTextToImage prompt true credit store →
        c = 10 := by
    cases credit with
    | netError m => refine ⟨by simp [handleTextToImage], ?_⟩; intro c hc
                    simp [handleTextToImage] at hc
                    exact hc
    | resp r =>
      by_cases hr : r.success = true
      · refine ⟨by cases store <;> simp [handleTextToImage, hr], ?_⟩
        intro c hc
        cases store <;> simp [handleTextToImage, hr] at hc <;> exact hc
      · refine ⟨by simp [handleTextToImage, hr], ?_⟩
        intro c hc
        simp [handleTextToImage, hr] at hc
        exact hc
  have hfs :
      (handleFaceSwap (some f) (some g) true credit store).head? =
          some (.checkCredits 15) ∧
      ∀ c, FrontAction.checkCredits c ∈ handleFaceSwap (some f) (some g) true credit store →
        c = 15 := by
    cases credit with
    | netError m => refine ⟨by simp [handleFaceSwap], ?_⟩; intro c hc
                    simp [handleFaceSwap] at hc
                    exact hc
    | resp r =>
      by_cases hr : r.success = true
      · refine ⟨by cases store <;> simp [handleFaceSwap, hr], ?_⟩
        intro c hc
        cases store <;> simp [handleFaceSwap, hr] at hc <;> exact hc
      · refine ⟨by simp [handleFaceSwap, hr], ?_⟩
        intro c hc
        simp [handleFaceSwap, hr] at hc
        exact hc
  refine ⟨?_, htt, hfs⟩
  intro kind hk
  rcases hk with rfl | rfl | rfl <;> exact hip _

/-- Witness for C8 at a concrete face-swap submission: the first action is
the credit check at the face_swap cost of 15. -/
theorem per_kind_credit_cost_witness :
    (handleFaceSwap (some ⟨"s.jpg", 100, "image/jpeg"⟩)
        (some ⟨"t.jpg", 200, "image/jpeg"⟩) true (.resp ⟨true, 100⟩)
        (.ok "/static/f.png")).head? =
      some (.checkCredits (specCreditCost .face_swap)) := by
  exact (per_kind_credit_cost ⟨"s.jpg", 100, "image/jpeg"⟩ ⟨"t.jpg", 200, "image/jpeg"⟩
    (.resp ⟨true, 100⟩) (.ok "/static/f.png") "a cat").2.2.1

/-! Store actions of the ghibli store. Each action is embedded as a function
from the pre-state and the network oracles to a result carrying the
post-state, mirroring the try/catch/finally structure of the source: the try
body returns a URL or raises, the catch block maps the raised error to a
user-facing message, and the finally clause resets the processing flags on
both paths. -/

/-- One entry of `processingHistory`. -/
structure HistoryEntry where
  original : String
  result : String
  timestamp : Int
  processingType : String
  processingTime : Int
deriving DecidableEq

/-- The parts of the ghibli-store state touched by the embedded actions. -/
structure StoreState where
  isProcessing : Bool
  currentTask : Option CurrentTask
  processingHistory : List HistoryEntry
deriving DecidableEq

/-- Kinds of axios errors distinguished by the catch blocks: a timeout
(`ECONNABORTED`), an HTTP error response with an optional detail field, or a
request that got no response at all. -/
inductive AxiosErrKind where
  | econnaborted
  | response (status : Nat) (detail : Option String)
  | request
deriving DecidableEq

/-- Outcome of awaiting the task-start POST: a thrown axios error, or a
parsed AsyncTaskResponse body. -/
inductive StartOutcome where
  | netError (k : AxiosErrKind)
  | resp (success : Bool) (message : String) (task_id : String)
deriving DecidableEq

/-- An exception reaching the catch block of a store action. -/
inductive ActionErr where
  | axios (k : AxiosErrKind)
  | js (msg : String)
deriving DecidableEq

/-- Shared catch block of the store actions: fixed messages for axios
timeout, error response and missing response; any other exception is
replaced by the action-specific unknown-error message. -/
def storeCatchMsg (unknownMsg : String) : ActionErr → String
  | .axios .econnaborted => "请求超时，请重试"
  | .axios (.response _ detail) => optStrOr detail "服务器错误"
  | .axios .request => "无法连接到服务器，请检查网络连接"
  | .js _ => unknownMsg

/-- Result of one store action: a returned URL or a thrown message, each
with the store post-state. -/
inductive ActionResult where
  | ok (s : StoreState) (url : String)
  | err (s : StoreState) (msg : String)
deriving DecidableEq

/-- Post-state of an action result, on either path. -/
def ActionResult.state : ActionResult → StoreState
  | .ok s _ => s
  | .err s _ => s

/-- JS expression `this.currentTask?.progress || 0`. -/
def ctProgressOr0 : Option CurrentTask → Int
  | some t => t.progress
  | none => 0

/-- Embedding of creativeUpscaleImageWithProgress: set isProcessing, clear
currentTask, start the async task, poll it, push the history entry on
success; the finally clause clears isProcessing and currentTask on both
paths, and the catch block maps any non-axios error (including the errors
thrown by the poll loop) to the unknown-error message. -/
def creativeUpscaleImageWithProgress (apiBase : String) (start : StartOutcome)
    (oracle : Nat → GetOutcome) (now : Int) (originalUrl : String)
    (s : StoreState) : ActionResult :=
  let s0 : StoreState := { s with isProcessing := true, currentTask := none }
  let body : StoreState × Except ActionErr String :=
    match start with
    | .netError k => (s0, .error (.axios k))
    | .resp success msg tid =>
      if success = false then (s0, .error (.js (strOr msg "启动任务失败")))
      else
        let s1 : StoreState :=
          { s0 with currentTask := some ⟨tid, 0, "pending", "任务已创建..."⟩ }
        let run := pollTaskProgress apiBase tid oracle s1.currentTask
        let s2 : StoreState := { s1 with currentTask := run.ct }
        match run.result with
        | .completedUrl url =>
          ({ s2 with processingHistory := s2.processingHistory ++
              [⟨originalUrl, url, now, "creative_upscale", ctProgressOr0 s2.currentTask⟩] },
            .ok url)
        | .notFoundError => (s2, .error (.js "任务不存在或已过期"))
        | .timeoutError => (s2, .error (.js "图像生成超时，请重试"))
  match body with
  | (sb, .ok url) => .ok { sb with isProcessing := false, currentTask := none } url
  | (sb, .error e) =>
    .err { sb with isProcessing := false, currentTask := none }
      (storeCatchMsg "处理图像时发生未知错误" e)

/-- Embedding of generateImageWithProgress: same structure as the creative
upscale action, with no original image, the text_to_image history kind and
its own unknown-error message; the prompt only shapes the request payload,
which is abstracted into the start outcome. -/
def generateImageWithProgress (apiBase : String) (start : StartOutcome)
    (oracle : Nat → GetOutcome) (now : Int) (s : StoreState) : ActionResult :=
  let s0 : StoreState := { s with isProcessing := true, currentTask := none }
  let body : StoreState × Except ActionErr String :=
    match start with
    | .netError k => (s0, .error (.axios k))
    | .resp success msg tid =>
      if success = false then (s0, .error (.js (strOr msg "启动任务失败")))
      else
        let s1 : StoreState :=
          { s0 with currentTask := some ⟨tid, 0, "pending", "任务已创建..."⟩ }
        let run := pollTaskProgress apiBase tid oracle s1.currentTask
        let s2 : StoreState := { s1 with currentTask := run.ct }
        match run.result with
        | .completedUrl url =>
          ({ s2 with processingHistory := s2.processingHistory ++
              [⟨"", url, now, "text_to_image", ctProgressOr0 s2.currentTask⟩] },
            .ok url)
        | .notFoundError => (s2, .error (.js "任务不存在或已过期"))
        | .timeoutError => (s2, .error (.js "图像生成超时，请重试"))
  match body with
  | (sb, .ok url) => .ok { sb with isProcessing := false, currentTask := none } url
  | (sb, .error e) =>
    .err { sb with isProcessing := false, currentTask := none }
      (storeCatchMsg "生成图像时发生未知错误" e)

/-- Outcome of awaiting the synchronous processing POST of processImage. -/
inductive ProcessRespOutcome where
  | netError (k : AxiosErrKind)
  | resp (success : Bool) (message : String) (processed_image_url : Option String)
      (processing_type : String) (processing_time : Int)
deriving DecidableEq

/-- Embedding of processImage: set isProcessing, issue the synchronous
processing request, push the history entry and return the (possibly
prefixed) image URL on a successful body with a truthy URL, throw otherwise;
the finally clause resets only isProcessing — currentTask is untouched. -/
def processImage (apiBase : String) (response : ProcessRespOutcome) (now : Int)
    (originalUrl : String) (s : StoreState) : ActionResult :=
  let s0 : StoreState := { s with isProcessing := true }
  let body : StoreState × Except ActionErr String :=
    match response with
    | .netError k => (s0, .error (.axios k))
    | .resp success msg url ptype ptime =>
      if success = true ∧ truthy url = true then
        let imageUrl := mkImageUrl apiBase (url.getD "")
        ({ s0 with processingHistory := s0.processingHistory ++
            [⟨originalUrl, imageUrl, now, ptype, ptime⟩] }, .ok imageUrl)
      else (s0, .error (.js (strOr msg "处理失败")))
  match body with
  | (sb, .ok url) => .ok { sb with isProcessing := false } url
  | (sb, .error e) =>
    .err { sb with isProcessing := false } (storeCatchMsg "处理图片时发生未知错误" e)

/-- C10: each embedded store action that sets isProcessing leaves it false
in its post-state on both the return and the throw path, and the
WithProgress variants additionally leave currentTask reset to null on both
paths, for every pre-state and for all oracle responses. -/
theorem store_actions_reset_flags (apiBase : String) (start : StartOutcome)
    (oracle : Nat → GetOutcome) (response : ProcessRespOutcome) (now : Int)
    (originalUrl : String) (s : StoreState) :
    (creativeUpscaleImageWithProgress apiBase start oracle now
        originalUrl s).state.isProcessing = false ∧
    (creativeUpscaleImageWithProgress apiBase start oracle now
        originalUrl s).state.currentTask = none ∧
    (generateImageWithProgress apiBase start oracle now s).state.isProcessing = false ∧
    (generateImageWithProgress apiBase start oracle now s).state.currentTask = none ∧
    (processImage apiBase response now originalUrl s).state.isProcessing = false := by
  have hcu : (creativeUpscaleImageWithProgress apiBase start oracle now
        originalUrl s).state.isProcessing = false ∧
      (creativeUpscaleImageWithProgress apiBase start oracle now
        originalUrl s).state.currentTask = none := by
    unfold creativeUpscaleImageWithProgress
    cases start with
    | netError k => simp [ActionResult.state]
    | resp success msg tid =>
      by_cases hs : success = false
      · simp [hs, ActionResult.state]
      · simp only [if_neg hs]
        split <;> simp [ActionResult.state]
  have hgi : (generateImageWithProgress apiBase start oracle now s).state.isProcessing
        = false ∧
      (generateImageWithProgress apiBase start oracle now s).state.currentTask = none := by
    unfold generateImageWithProgress
    cases start with
    | netError k => simp [ActionResult.state]
    | resp success msg tid =>
      by_cases hs : success = false
      · simp [hs, ActionResult.state]
      · simp only [if_neg hs]
        split <;> simp [ActionResult.state]
  have hpi : (processImage apiBase response now originalUrl s).state.isProcessing
        = false := by
    unfold processImage
    cases response with
    | netError k => simp [ActionResult.state]
    | resp success msg url ptype ptime =>
      by_cases hs : success = true ∧ truthy url = true
      · simp [hs, ActionResult.state]
      · simp [if_neg hs, ActionResult.state]
  exact ⟨hcu.1, hcu.2, hgi.1, hgi.2, hpi⟩

end LiteAiWeb
